import Mathlib

/-!
Verification of the asset dependency tracking database
(`AzToolsFramework::AssetDatabase::AssetDatabaseConnection`).

The development shallowly embeds the entity records, the prepared-statement
catalog's row semantics, the result-projection loops (`GetResult`,
`GetJobResult`, `GetCombinedResult`), the connection open/validate/close
lifecycle, the `LIKE`-pattern escaping helper, and the recursive
transitive-dependency query, and proves the specified properties about them.

SQL statements are embedded as row-list semantics over an in-memory database
value: a `SELECT ... WHERE c` statement becomes a filter of the cross join of
the referenced tables, and stepping a prepared statement becomes walking a
row list together with a flag saying whether stepping ends in `SqlError`.
-/

set_option linter.unusedVariables false

namespace AssetDb

/-- Row of the ScanFolders table (`ScanFolderDatabaseEntry`).
`outputPfx` models the source's output-prefix column. -/
structure ScanFolderEntry where
  scanFolderID : Int
  scanFolder : String
  displayName : String
  portableKey : String
  outputPfx : String
  isRoot : Int
deriving DecidableEq

/-- Row of the Sources table (`SourceDatabaseEntry`); UUIDs are modelled as `Nat`. -/
structure SourceEntry where
  sourceID : Int
  scanFolderPK : Int
  sourceName : String
  sourceGuid : Nat
  analysisFingerprint : String
deriving DecidableEq

/-- Row of the Jobs table (`JobDatabaseEntry`); the status enum is modelled as `Nat`. -/
structure JobEntry where
  jobID : Int
  sourcePK : Int
  jobKey : String
  fingerprint : Nat
  platform : String
  builderGuid : Nat
  status : Nat
  jobRunKey : Nat
  firstFailLogTime : Int
  firstFailLogFile : String
  lastFailLogTime : Int
  lastFailLogFile : String
  lastLogTime : Int
  lastLogFile : String
deriving DecidableEq

/-- Row of the Products table (`ProductDatabaseEntry`). -/
structure ProductEntry where
  productID : Int
  jobPK : Int
  subID : Nat
  productName : String
  assetType : Nat
  legacyGuid : Nat
deriving DecidableEq

/-- Row of the ProductDependencies table (`ProductDependencyDatabaseEntry`);
the 64-bit flag set is modelled as `Nat`, the dependency-type enum as `Nat`. -/
structure ProductDependencyEntry where
  productDependencyID : Int
  productPK : Int
  dependencySourceGuid : Nat
  dependencySubID : Nat
  dependencyFlags : Nat
  platform : String
  unresolvedPath : String
  dependencyType : Nat
deriving DecidableEq

/-- Row of the SourceDependency table (`SourceFileDependencyEntry`). -/
structure SourceFileDependencyEntry where
  sourceDependencyID : Int
  builderGuid : Nat
  source : String
  dependsOnSource : String
  typeOfDependency : Nat
deriving DecidableEq

/-- The in-memory model of a database state: the five core tables. -/
structure AssetDB where
  scanFolders : List ScanFolderEntry
  sources : List SourceEntry
  jobs : List JobEntry
  products : List ProductEntry
  productDependencies : List ProductDependencyEntry
deriving DecidableEq

/-! ## Entity equality operators -/

/-- `Modelled from the spec:` `AzFramework::StringFunc::Equal` (its definition is not
among the shown sources); the spec's equality laws treat it as plain string equality. -/
def stringFuncEqual (a b : String) : Bool := a == b

/-- `ScanFolderDatabaseEntry::operator==`: "its the same database entry when the
portable key is the same." -/
def scanFolderEntryEq (a b : ScanFolderEntry) : Bool :=
  a.portableKey == b.portableKey

/-- `ProductDatabaseEntry::operator==`: "equivalence is when everything but the id
is the same" — job primary key, sub-id, asset type and product name; the legacy
guid is explicitly not compared. -/
def productEntryEq (a b : ProductEntry) : Bool :=
  a.jobPK == b.jobPK &&
  a.subID == b.subID &&
  a.assetType == b.assetType &&
  stringFuncEqual a.productName b.productName

/-! ## SourceFileDependencyEntry construction -/

/-- `Modelled from the spec:` the `TypeOfDependency` bit-flag values from the
header (not among the shown sources): source-to-source and job-to-job are single
bits, `DEP_SourceOrJob` their union, the wildcard like-match its own bit, and
`DEP_Any` the reserved all-bits query-side sentinel. -/
def DEP_SourceToSource : Nat := 1

/-- Job-to-job dependency bit. -/
def DEP_JobToJob : Nat := 2

/-- Union of source-to-source and job-to-job. -/
def DEP_SourceOrJob : Nat := 3

/-- Wildcard "like-match" dependency bit. -/
def DEP_SourceLikeMatch : Nat := 4

/-- Reserved "any" sentinel: a query-side filter value only. -/
def DEP_Any : Nat := 0xFFFFFFFF

/-- The value-constructor of `SourceFileDependencyEntry` used for persistence.
Its `AZ_Assert(dependencyType != SourceFileDependencyEntry::DEP_Any, ...)` is
modelled as a guard: a construction that would trip the assertion yields `none`.
The row id starts at the not-yet-inserted marker `-1`. -/
def mkSourceFileDependencyEntry (builderGuid : Nat) (source dependsOnSource : String)
    (dependencyType : Nat) : Option SourceFileDependencyEntry :=
  if dependencyType = DEP_Any then none
  else some ⟨-1, builderGuid, source, dependsOnSource, dependencyType⟩

/-! ## Result projection layer

A prepared statement's stepping behavior is embedded as the list of rows it
yields in order plus a flag `err` telling whether, after the last row, `Step()`
returns `SqlError` instead of `SqlDone`.  Handlers may carry caller state (the
source's lambdas capture locals by reference), so they are modelled as state
transformers `σ → row → Bool × σ`.  Each runner also returns the list of rows
it delivered to the handler, which in the source is observable through the
handler's side effects. -/

/-- The anonymous-namespace `GetResult<TEntry>` helper: step, fetch, call the
handler, stop early (not an error) when the handler returns false; zero rows is
success, and a trailing `SqlError` makes the call fail. -/
def getResultRun {α σ : Type} (rows : List α) (err : Bool)
    (handler : σ → α → Bool × σ) (s : σ) : Bool × σ × List α :=
  match rows with
  | [] => (!err, s, [])
  | r :: rest =>
    match handler s r with
    | (true, s1) =>
      let out := getResultRun rest err handler s1
      (out.1, out.2.1, r :: out.2.2)
    | (false, s1) => (true, s1, [r])

/-- `ResultMatchesJobCriteria`: the in-memory post-filter for the optional
builder-GUID / job-key / status criteria (absent criteria — null pointer, null
GUID, `JobStatus::Any` — are modelled as `none`). -/
def resultMatchesJobCriteria (jobKey : Option String) (builderGuid : Option Nat)
    (status : Option Nat) (savedJobKey : String) (savedBuilderGuid : Nat)
    (savedJobStatus : Nat) : Bool :=
  (match jobKey with | some k => savedJobKey == k | none => true) &&
  (match builderGuid with | some g => savedBuilderGuid == g | none => true) &&
  (match status with | some st => savedJobStatus == st | none => true)

/-- `GetJobResult`: like `getResultRun` but rows failing
`ResultMatchesJobCriteria` are fetched and skipped without invoking the handler. -/
def getJobResultRun {σ : Type} (rows : List JobEntry) (err : Bool)
    (builderGuid : Option Nat) (jobKey : Option String) (status : Option Nat)
    (handler : σ → JobEntry → Bool × σ) (s : σ) : Bool × σ × List JobEntry :=
  match rows with
  | [] => (!err, s, [])
  | r :: rest =>
    if resultMatchesJobCriteria jobKey builderGuid status r.jobKey r.builderGuid r.status then
      match handler s r with
      | (true, s1) =>
        let out := getJobResultRun rest err builderGuid jobKey status handler s1
        (out.1, out.2.1, r :: out.2.2)
      | (false, s1) => (true, s1, [r])
    else
      getJobResultRun rest err builderGuid jobKey status handler s

/-- A row of the combined ScanFolders⋈Sources⋈Jobs⋈Products join
(`CombinedDatabaseEntry`). -/
structure CombinedEntry where
  scanFolder : ScanFolderEntry
  source : SourceEntry
  job : JobEntry
  product : ProductEntry
deriving DecidableEq

/-- `AssetDatabaseConnection::GetCombinedResult` on the default
no-legacy-sub-id path taken by `GetCombinedResultAsLambda` (the enrichment flag
defaults to false there): rows failing the job criteria are skipped, a handler
false-return stops iteration as success. -/
def getCombinedResultRun {σ : Type} (rows : List CombinedEntry) (err : Bool)
    (builderGuid : Option Nat) (jobKey : Option String) (status : Option Nat)
    (handler : σ → CombinedEntry → Bool × σ) (s : σ) : Bool × σ × List CombinedEntry :=
  match rows with
  | [] => (!err, s, [])
  | r :: rest =>
    if resultMatchesJobCriteria jobKey builderGuid status r.job.jobKey r.job.builderGuid r.job.status then
      match handler s r with
      | (true, s1) =>
        let out := getCombinedResultRun rest err builderGuid jobKey status handler s1
        (out.1, out.2.1, r :: out.2.2)
      | (false, s1) => (true, s1, [r])
    else
      getCombinedResultRun rest err builderGuid jobKey status handler s

/-! ## Combined query row semantics -/

/-- The raw cross join of the four tables of a combined query, one
`CombinedEntry` per quadruple. -/
def crossJoinRows (db : AssetDB) : List CombinedEntry :=
  db.sources.flatMap fun src =>
    db.jobs.flatMap fun j =>
      db.scanFolders.flatMap fun sf =>
        db.products.flatMap fun p => [⟨sf, src, j, p⟩]

/-- Join/filter conditions shared by the combined statements: the `ON` clauses
`Sources.SourceID = Jobs.SourcePK`, `ScanFolders.ScanFolderID =
Sources.ScanFolderPK`, `Jobs.JobID = Products.JobPK`.  (The statements write
the Jobs join as `LEFT JOIN`, but the subsequent `INNER JOIN Products ON
Jobs.JobID = Products.JobPK` discards every null-extended row, so the result
set is that of an inner join.) -/
def combinedJoinCond (row : CombinedEntry) : Bool :=
  row.source.sourceID == row.job.sourcePK &&
  row.scanFolder.scanFolderID == row.source.scanFolderPK &&
  row.job.jobID == row.product.jobPK

/-- Rows of `QUERY_COMBINED_BY_SOURCEID_STATEMENT`: the combined join restricted
to `Sources.SourceID = :sourceid`. -/
def combinedBySourceIDRows (db : AssetDB) (sourceid : Int) : List CombinedEntry :=
  (crossJoinRows db).filter fun row =>
    combinedJoinCond row && row.source.sourceID == sourceid

/-- Rows of `QUERY_COMBINED_BY_JOBID_STATEMENT`: the combined join restricted to
`Jobs.JobID = :jobid`. -/
def combinedByJobIDRows (db : AssetDB) (jobid : Int) : List CombinedEntry :=
  (crossJoinRows db).filter fun row =>
    combinedJoinCond row && row.job.jobID == jobid

/-- `AssetDatabaseConnection::QueryCombinedBySourceID` on the no-platform path
with default criteria (null builder GUID, null job key, status `Any`). -/
def queryCombinedBySourceID {σ : Type} (db : AssetDB) (sourceID : Int) (err : Bool)
    (handler : σ → CombinedEntry → Bool × σ) (s : σ) : Bool × σ × List CombinedEntry :=
  getCombinedResultRun (combinedBySourceIDRows db sourceID) err none none none handler s

/-- `AssetDatabaseConnection::QueryCombinedByJobID` on the no-platform path with
default criteria. -/
def queryCombinedByJobID {σ : Type} (db : AssetDB) (jobID : Int) (err : Bool)
    (handler : σ → CombinedEntry → Bool × σ) (s : σ) : Bool × σ × List CombinedEntry :=
  getCombinedResultRun (combinedByJobIDRows db jobID) err none none none handler s

/-! ## Scan-folder and source projections over the combined queries -/

/-- `AssetDatabaseConnection::QueryScanFolderBySourceID`: runs
`QueryCombinedBySourceID`, projects each combined row to its scan folder, and
returns `found && succeeded` — note the conjunction with the found flag. -/
def queryScanFolderBySourceID {σ : Type} (db : AssetDB) (sourceID : Int) (err : Bool)
    (handler : σ → ScanFolderEntry → Bool × σ) (s : σ) : Bool × σ :=
  let out := queryCombinedBySourceID db sourceID err
    (fun (fs : Bool × σ) (combined : CombinedEntry) =>
      let h := handler fs.2 combined.scanFolder
      (h.1, (true, h.2)))
    (false, s)
  (out.2.1.1 && out.1, out.2.1.2)

/-- `AssetDatabaseConnection::QueryScanFolderByJobID`: same shape over
`QueryCombinedByJobID`. -/
def queryScanFolderByJobID {σ : Type} (db : AssetDB) (jobID : Int) (err : Bool)
    (handler : σ → ScanFolderEntry → Bool × σ) (s : σ) : Bool × σ :=
  let out := queryCombinedByJobID db jobID err
    (fun (fs : Bool × σ) (combined : CombinedEntry) =>
      let h := handler fs.2 combined.scanFolder
      (h.1, (true, h.2)))
    (false, s)
  (out.2.1.1 && out.1, out.2.1.2)

/-- `AssetDatabaseConnection::QueryScanFolderByProductID`: the source passes its
`productID` argument straight to `QueryCombinedBySourceID`, where it is bound as
the `Sources.SourceID` parameter. -/
def queryScanFolderByProductID {σ : Type} (db : AssetDB) (productID : Int) (err : Bool)
    (handler : σ → ScanFolderEntry → Bool × σ) (s : σ) : Bool × σ :=
  let out := queryCombinedBySourceID db productID err
    (fun (fs : Bool × σ) (combined : CombinedEntry) =>
      let h := handler fs.2 combined.scanFolder
      (h.1, (true, h.2)))
    (false, s)
  (out.2.1.1 && out.1, out.2.1.2)

/-- `AssetDatabaseConnection::QuerySourceByJobID`: delegates to
`QueryCombinedByJobID` with an inner handler that forwards one source to the
caller's handler and then returns false ("one"), discarding the caller
handler's continue flag. -/
def querySourceByJobID {σ : Type} (db : AssetDB) (jobid : Int) (err : Bool)
    (handler : σ → SourceEntry → Bool × σ) (s : σ) : Bool × σ :=
  let out := queryCombinedByJobID db jobid err
    (fun (st : σ) (combined : CombinedEntry) =>
      let h := handler st combined.source
      (false, h.2))
    s
  (out.1, out.2.1)

/-! ## JobInfo projection -/

/-- The flattened Source+Job shape handed to scheduler/editor callers
(`AzToolsFramework::AssetSystem::JobInfo`, fields used by `PopulateJobInfo`). -/
structure JobInfo where
  sourceFile : String
  platform : String
  builderGuid : Nat
  jobKey : String
  status : Nat
  jobRunKey : Nat
  firstFailLogTime : Int
  firstFailLogFile : String
  lastFailLogTime : Int
  lastFailLogFile : String
  lastLogTime : Int
  lastLogFile : String
  jobID : Int
  watchFolder : String
deriving DecidableEq

/-- `PopulateJobInfo` plus the `m_sourceFile` assignment done by the JobInfo
query methods; `watchFolder` stays at its default in `QueryJobInfoByJobID`. -/
def populateJobInfo (sourceFile : String) (job : JobEntry) : JobInfo :=
  { sourceFile := sourceFile
    platform := job.platform
    builderGuid := job.builderGuid
    jobKey := job.jobKey
    status := job.status
    jobRunKey := job.jobRunKey
    firstFailLogTime := job.firstFailLogTime
    firstFailLogFile := job.firstFailLogFile
    lastFailLogTime := job.lastFailLogTime
    lastFailLogFile := job.lastFailLogFile
    lastLogTime := job.lastLogTime
    lastLogFile := job.lastLogFile
    jobID := job.jobID
    watchFolder := "" }

/-- Rows of `QUERY_JOB_BY_JOBID_STATEMENT`. -/
def jobByJobIDRows (db : AssetDB) (jobid : Int) : List JobEntry :=
  db.jobs.filter fun j => j.jobID == jobid

/-- `AssetDatabaseConnection::QueryJobByJobID` (via `GetJobResultSimple`, i.e.
`GetJobResult` with absent criteria). -/
def queryJobByJobID {σ : Type} (db : AssetDB) (jobid : Int) (err : Bool)
    (handler : σ → JobEntry → Bool × σ) (s : σ) : Bool × σ × List JobEntry :=
  getJobResultRun (jobByJobIDRows db jobid) err none none none handler s

/-- `AssetDatabaseConnection::QueryJobInfoByJobID`: looks up the source via
`QuerySourceByJobID` (failing when nothing was found), then streams
`QueryJobByJobID` rows as `JobInfo` values, returning `found && succeeded`.
`err1`/`err2` are the error flags of the two underlying statements. -/
def queryJobInfoByJobID {σ : Type} (db : AssetDB) (jobID : Int) (err1 err2 : Bool)
    (handler : σ → JobInfo → Bool × σ) (s : σ) : Bool × σ :=
  let step1 := querySourceByJobID db jobID err1
    (fun (st : Option SourceEntry) (src : SourceEntry) => (false, some src)) none
  match step1.2 with
  | none => (false, s)
  | some source =>
    if !step1.1 then (false, s)
    else
      let step2 := queryJobByJobID db jobID err2
        (fun (fs : Bool × σ) (job : JobEntry) =>
          let h := handler fs.2 (populateJobInfo source.sourceName job)
          (h.1, (true, h.2)))
        (false, s)
      (step2.2.1.1 && step2.1, step2.2.1.2)

/-! ## Unresolved product dependencies -/

/-- Rows of `GET_UNRESOLVED_PRODUCT_DEPENDENCIES_STATEMENT`:
`SELECT * FROM ProductDependencies where UnresolvedPath != ''`. -/
def unresolvedProductDependenciesRows (db : AssetDB) : List ProductDependencyEntry :=
  db.productDependencies.filter fun d => d.unresolvedPath != ""

/-- `AssetDatabaseConnection::QueryUnresolvedProductDependencies` (via
`GetProductDependencyResult`, the plain `GetResult`). -/
def queryUnresolvedProductDependencies {σ : Type} (db : AssetDB) (err : Bool)
    (handler : σ → ProductDependencyEntry → Bool × σ) (s : σ) :
    Bool × σ × List ProductDependencyEntry :=
  getResultRun (unresolvedProductDependenciesRows db) err handler s

/-! ## Connection lifecycle: open, post-open validation, close

`OpenDatabase` consults the filesystem, the SQLite open call, the stored schema
version and the store's table catalog; those externals are gathered in an
`OpenEnv`.  The connection's own mutable state is the store handle plus the
memoized validated-table cache. -/

/-- External circumstances of one `OpenDatabase()` call. -/
structure OpenEnv where
  readOnlyMode : Bool
  fileExists : Bool
  fileWritable : Bool
  storeOpenOk : Bool
  storedVersion : Int
  currentVersion : Int
  storeTables : List String
deriving DecidableEq

/-- Connection-manager state: `m_databaseConnection` (as a present/absent flag)
and `m_validatedTables`. -/
structure ConnState where
  hasConnection : Bool
  validatedTables : List String
deriving DecidableEq

/-- The state of a connection that has never been opened (constructor state),
also the assertion precondition of `OpenDatabase` (`AZ_Assert(!m_databaseConnection,
"Already open!")`). -/
def initialConnState : ConnState := ⟨false, []⟩

/-- `AssetDatabaseConnection::CloseDatabase`: release the store handle and clear
the validated-table cache; a no-op apart from that when already closed. -/
def closeDatabase (st : ConnState) : ConnState := ⟨false, []⟩

/-- The `EXPECTED_TABLES` array checked for database corruption. -/
def expectedTables : List String :=
  ["BuilderInfo", "Files", "Jobs", "LegacySubIDs", "ProductDependencies",
   "Products", "ScanFolders", "SourceDependency", "Sources", "dbinfo"]

/-- `AssetDatabaseConnection::ValidateDatabaseTable`: memoized per table name;
otherwise requires a live open connection and the table's existence, caching a
success. -/
def validateDatabaseTable (env : OpenEnv) (st : ConnState) (tableName : String) :
    Bool × ConnState :=
  if st.validatedTables.contains tableName then (true, st)
  else if !st.hasConnection then (false, st)
  else if env.storeTables.contains tableName then
    (true, ⟨st.hasConnection, tableName :: st.validatedTables⟩)
  else (false, st)

/-- The table-existence loop of `PostOpenDatabase` over `EXPECTED_TABLES`. -/
def validateTablesLoop (env : OpenEnv) : List String → ConnState → Bool × ConnState
  | [], st => (true, st)
  | t :: ts, st =>
    let v := validateDatabaseTable env st t
    if v.1 then validateTablesLoop env ts v.2 else (false, v.2)

/-- `AssetDatabaseConnection::PostOpenDatabase`: fail on a schema version that is
not exactly the current one (no migration path exists), then require every
expected table. -/
def postOpenDatabase (env : OpenEnv) (st : ConnState) : Bool × ConnState :=
  if env.storedVersion != env.currentVersion then (false, st)
  else validateTablesLoop env expectedTables st

/-- Outcome of `OpenDatabase()`: the boolean result, the connection state left
behind, and whether the underlying store's `Open` was ever attempted. -/
structure OpenOutcome where
  success : Bool
  state : ConnState
  storeOpenAttempted : Bool
deriving DecidableEq

/-- `AssetDatabaseConnection::OpenDatabase`:
read-only mode on a missing file and read-write mode on an unwritable existing
file fail before the store is touched; a store-open failure releases the fresh
handle; otherwise the validated-table cache is cleared, statements are created,
and a `PostOpenDatabase` failure closes the whole connection. -/
def openDatabase (env : OpenEnv) (st : ConnState) : OpenOutcome :=
  if env.readOnlyMode && !env.fileExists then ⟨false, st, false⟩
  else if !env.readOnlyMode && env.fileExists && !env.fileWritable then ⟨false, st, false⟩
  else if !env.storeOpenOk then ⟨false, ⟨false, st.validatedTables⟩, true⟩
  else
    let opened : ConnState := ⟨true, []⟩
    let post := postOpenDatabase env opened
    if post.1 then ⟨true, post.2, true⟩
    else ⟨false, closeDatabase post.2, true⟩

/-! ## LIKE-pattern search terms

Strings are handled as `List Char` here so that the pattern matcher and the
escaping helper can be reasoned about by structural induction. -/

/-- `Modelled from the spec:` `AzFramework::StringFunc::Replace` for a
single-character search token (not among the shown sources): every occurrence
of `c` is replaced by `rep`, scanning left to right without rescanning the
replacement text. -/
def replaceChar (c : Char) (rep : List Char) : List Char → List Char
  | [] => []
  | x :: xs => if x == c then rep ++ replaceChar c rep xs else x :: replaceChar c rep xs

/-- The three like-search modes plus the raw default of
`AssetDatabaseConnection::GetLikeActualSearchTerm`. -/
inductive LikeType where
  | Raw
  | StartsWith
  | EndsWith
  | Matches
deriving DecidableEq

/-- `AssetDatabaseConnection::GetLikeActualSearchTerm`: escape `%` as `|%` and
`_` as `|_`, then append and/or prepend the `%` wildcard according to the mode;
the raw default passes the term through. -/
def getLikeActualSearchTerm (likeString : List Char) : LikeType → List Char
  | .StartsWith =>
    replaceChar '_' ['|', '_'] (replaceChar '%' ['|', '%'] likeString) ++ ['%']
  | .EndsWith =>
    '%' :: replaceChar '_' ['|', '_'] (replaceChar '%' ['|', '%'] likeString)
  | .Matches =>
    '%' :: (replaceChar '_' ['|', '_'] (replaceChar '%' ['|', '%'] likeString) ++ ['%'])
  | .Raw => likeString

/-- `Modelled from the spec:` the store's `LIKE ... ESCAPE '|'` operator (the
storage engine is an external black box): `%` matches any sequence of zero or
more characters, `_` matches exactly one character, and the escape character
`|` makes the immediately following pattern character match itself literally
(a trailing escape matches nothing). -/
def likeMatch : List Char → List Char → Bool
  | [], s => s.isEmpty
  | p :: ps, s =>
    if p == '%' then
      (List.range (s.length + 1)).any fun n => likeMatch ps (s.drop n)
    else if p == '|' then
      match ps, s with
      | q :: ps2, c :: s2 => q == c && likeMatch ps2 s2
      | _, _ => false
    else
      match s with
      | [] => false
      | c :: s2 => if p == '_' then likeMatch ps s2 else p == c && likeMatch ps s2

/-! ## Recursive transitive product dependencies

`QUERY_ALL_PRODUCTDEPENDENCIES_STATEMENT` is a recursive common table
expression: the initial select is the root product row, the recursive select
joins `Products P` against the working table through
`Jobs`/`Sources`/`ProductDependencies` so that `P` is a product whose owning
source's GUID and whose sub-id match a dependency edge owned by an
already-reached product, `UNION` deduplicates, and `LIMIT -1 OFFSET 1` keeps
every row except the first one added (the root itself).  The embedding computes
the same deduplicating fixpoint: saturate the row set under the recursive
select (one pass per product suffices), then drop the leading root row. -/

/-- One product `y` resolved from a dependency edge owned by product `x`: some
`ProductDependencies` row has `ProductPK = x.productID`, and `y`'s owning
job/source joins to the edge's `DependencySourceGuid`/`DependencySubID`. -/
def depEdge (db : AssetDB) (x y : ProductEntry) : Bool :=
  db.productDependencies.any fun d =>
    d.productPK == x.productID &&
    y.subID == d.dependencySubID &&
    db.jobs.any fun j =>
      j.jobID == y.jobPK &&
      db.sources.any fun src =>
        src.sourceID == j.sourcePK && src.sourceGuid == d.dependencySourceGuid

/-- The recursive select evaluated against the working row set `cur`: every
product reached from some row of `cur` by one dependency edge. -/
def depSuccessors (db : AssetDB) (cur : List ProductEntry) : List ProductEntry :=
  db.products.filter fun p => cur.any fun r => depEdge db r p

/-- One `UNION` round: append the newly derived rows, discarding those already
present (the recursive query's deduplication). -/
def closureStep (db : AssetDB) (cur : List ProductEntry) : List ProductEntry :=
  cur ++ (depSuccessors db cur).filter fun p => decide (p ∉ cur)

/-- `n` rounds of `closureStep`. -/
def closureN (db : AssetDB) : Nat → List ProductEntry → List ProductEntry
  | 0, cur => cur
  | n + 1, cur => closureN db n (closureStep db cur)

/-- Row list of `QUERY_ALL_PRODUCTDEPENDENCIES_STATEMENT` for `:productid =
rootId`: saturate from the initial select (`ProductID = :productid`) and skip
the first row per `LIMIT -1 OFFSET 1`. -/
def queryAllProductDependenciesRows (db : AssetDB) (rootId : Int) : List ProductEntry :=
  (closureN db db.products.length
    (db.products.filter fun p => p.productID == rootId)).drop 1

/-- `AssetDatabaseConnection::QueryAllProductDependencies` (via
`GetProductResultSimple`, whose absent criteria deliver every row like
`GetResult`). -/
def queryAllProductDependencies {σ : Type} (db : AssetDB) (rootId : Int) (err : Bool)
    (handler : σ → ProductEntry → Bool × σ) (s : σ) : Bool × σ × List ProductEntry :=
  getResultRun (queryAllProductDependenciesRows db rootId) err handler s

/-- Products reachable from `root` by following stored dependency edges, the
target of each hop being a stored product row. -/
inductive ReachableProduct (db : AssetDB) (root : ProductEntry) : ProductEntry → Prop
  | refl : ReachableProduct db root root
  | step {x y : ProductEntry} : ReachableProduct db root x → depEdge db x y = true →
      y ∈ db.products → ReachableProduct db root y

/-! ## Sample database values used by witnesses -/

/-- A database with no rows at all. -/
def emptyDb : AssetDB := ⟨[], [], [], [], []⟩

/-- Sample scan folder row. -/
def sampleScanFolder : ScanFolderEntry := ⟨1, "c:/dev", "dev", "pk1", "", 0⟩

/-- Sample source row under `sampleScanFolder`. -/
def sampleSource : SourceEntry := ⟨100, 1, "a.png", 11, "fp"⟩

/-- Sample job row for `sampleSource`. -/
def sampleJob : JobEntry := ⟨200, 100, "tex", 5, "pc", 77, 4, 1, 0, "", 0, "", 0, ""⟩

/-- Sample product row of `sampleJob`. -/
def sampleProduct : ProductEntry := ⟨300, 200, 0, "cache/a.dds", 9, 12⟩

/-- A one-chain database. -/
def sampleDb : AssetDB :=
  ⟨[sampleScanFolder], [sampleSource], [sampleJob], [sampleProduct], []⟩

/-- The single combined row of `sampleDb`. -/
def sampleCombined : CombinedEntry :=
  ⟨sampleScanFolder, sampleSource, sampleJob, sampleProduct⟩

/-! ## Helper lemmas on the projection runners -/

/-- With an always-continue handler and no trailing error, `GetResult` delivers
every row and succeeds; with a trailing error it fails after delivering every
row. -/
theorem getResultRun_alwaysTrue {α σ : Type} (rows : List α) (err : Bool) (s : σ) :
    getResultRun rows err (fun s _ => (true, s)) s = (!err, s, rows) := by
  induction rows with
  | nil => rfl
  | cons r rest ih => simp [getResultRun, ih]

/-- Absent criteria match every row. -/
theorem resultMatchesJobCriteria_none (a : String) (b c : Nat) :
    resultMatchesJobCriteria none none none a b c = true := rfl

/-- `GetResult` can only fail when stepping ends in `SqlError`. -/
theorem getResultRun_false_imp_err {α σ : Type} (rows : List α) (err : Bool)
    (handler : σ → α → Bool × σ) (s : σ)
    (h : (getResultRun rows err handler s).1 = false) : err = true := by
  induction rows generalizing s with
  | nil => simpa [getResultRun] using h
  | cons r rest ih =>
    rw [getResultRun] at h
    rcases hh : handler s r with ⟨b, s1⟩
    rw [hh] at h
    cases b with
    | true => exact ih s1 h
    | false => simp at h

/-- `GetJobResult` can only fail when stepping ends in `SqlError`. -/
theorem getJobResultRun_false_imp_err {σ : Type} (rows : List JobEntry) (err : Bool)
    (builderGuid : Option Nat) (jobKey : Option String) (status : Option Nat)
    (handler : σ → JobEntry → Bool × σ) (s : σ)
    (h : (getJobResultRun rows err builderGuid jobKey status handler s).1 = false) :
    err = true := by
  induction rows generalizing s with
  | nil => simpa [getJobResultRun] using h
  | cons r rest ih =>
    rw [getJobResultRun] at h
    by_cases hm : resultMatchesJobCriteria jobKey builderGuid status r.jobKey r.builderGuid r.status = true
    · rw [if_pos hm] at h
      rcases hh : handler s r with ⟨b, s1⟩
      rw [hh] at h
      cases b with
      | true => exact ih s1 h
      | false => simp at h
    · rw [if_neg hm] at h
      exact ih s h

/-- `GetCombinedResult` can only fail when stepping ends in `SqlError`. -/
theorem getCombinedResultRun_false_imp_err {σ : Type} (rows : List CombinedEntry)
    (err : Bool) (builderGuid : Option Nat) (jobKey : Option String)
    (status : Option Nat) (handler : σ → CombinedEntry → Bool × σ) (s : σ)
    (h : (getCombinedResultRun rows err builderGuid jobKey status handler s).1 = false) :
    err = true := by
  induction rows generalizing s with
  | nil => simpa [getCombinedResultRun] using h
  | cons r rest ih =>
    rw [getCombinedResultRun] at h
    by_cases hm : resultMatchesJobCriteria jobKey builderGuid status r.job.jobKey r.job.builderGuid r.job.status = true
    · rw [if_pos hm] at h
      rcases hh : handler s r with ⟨b, s1⟩
      rw [hh] at h
      cases b with
      | true => exact ih s1 h
      | false => simp at h
    · rw [if_neg hm] at h
      exact ih s h

/-! ## C7: unresolved-dependency worklist -/

/-- C7: `QueryUnresolvedProductDependencies` delivers to the handler exactly the
`ProductDependencies` rows whose `UnresolvedPath` is a non-empty string, and no
row whose `UnresolvedPath` is the empty string, for every database state. -/
theorem queryUnresolvedProductDependencies_exact (db : AssetDB)
    (d : ProductDependencyEntry) :
    d ∈ (queryUnresolvedProductDependencies db false
        (fun (s : Unit) _ => (true, s)) ()).2.2 ↔
      d ∈ db.productDependencies ∧ d.unresolvedPath ≠ "" := by
  rw [queryUnresolvedProductDependencies, getResultRun_alwaysTrue]
  simp [unresolvedProductDependenciesRows, List.mem_filter]

/-! ## C8: entity equality laws -/

/-- C8: `ScanFolderDatabaseEntry::operator==` holds exactly when the portable
keys agree (ids, paths, display names, output prefixes and root flags are free
to differ), and `ProductDatabaseEntry::operator==` holds exactly when job
primary key, sub-id, asset type and product name all agree (ids and legacy
GUIDs are free to differ). -/
theorem entry_equality_laws (a b : ScanFolderEntry) (p q : ProductEntry) :
    (scanFolderEntryEq a b = true ↔ a.portableKey = b.portableKey) ∧
    (productEntryEq p q = true ↔
      p.jobPK = q.jobPK ∧ p.subID = q.subID ∧ p.assetType = q.assetType ∧
      p.productName = q.productName) := by
  constructor
  · simp [scanFolderEntryEq]
  · simp [productEntryEq, stringFuncEqual, and_assoc]

/-! ## C9: the DEP_Any sentinel is never persisted -/

/-- C9: every `SourceFileDependencyEntry` actually constructed for persistence
(i.e. whose construction passes the constructor's assertion) carries a
dependency type different from the reserved query-side sentinel `DEP_Any`. -/
theorem mkSourceFileDependencyEntry_not_DEP_Any (builderGuid : Nat)
    (source dependsOnSource : String) (dependencyType : Nat)
    (e : SourceFileDependencyEntry)
    (h : mkSourceFileDependencyEntry builderGuid source dependsOnSource
          dependencyType = some e) :
    e.typeOfDependency ≠ DEP_Any := by
  unfold mkSourceFileDependencyEntry at h
  split at h
  · exact absurd h (by simp)
  · next hne =>
      injection h with h
      subst h
      exact hne

/-- Witness for C9: constructing a source-to-source dependency row succeeds and
its stored type is not `DEP_Any`. -/
theorem mkSourceFileDependencyEntry_not_DEP_Any_witness :
    (⟨-1, 7, "a.png", "b.png", 1⟩ : SourceFileDependencyEntry).typeOfDependency ≠
      DEP_Any :=
  mkSourceFileDependencyEntry_not_DEP_Any 7 "a.png" "b.png" 1 _ rfl

/-! ## C10: QueryScanFolderByProductID delegates by source id -/

/-- C10: `QueryScanFolderByProductID` performs exactly the same computation as
`QueryScanFolderBySourceID` — both run `QueryCombinedBySourceID` with the given
id bound as the `Sources.SourceID` parameter — and every row of that underlying
query belongs to the source whose id equals the bound parameter. -/
theorem queryScanFolderByProductID_same_as_bySourceID (db : AssetDB) (n : Int)
    (σ : Type) (err : Bool) (handler : σ → ScanFolderEntry → Bool × σ) (s : σ) :
    queryScanFolderByProductID db n err handler s =
      queryScanFolderBySourceID db n err handler s ∧
    ∀ row ∈ combinedBySourceIDRows db n, row.source.sourceID = n := by
  refine ⟨rfl, ?_⟩
  intro row hrow
  have hcond := (List.mem_filter.mp hrow).2
  simp [combinedJoinCond] at hcond
  exact hcond.2

/-- Witness for C10: on the one-chain sample database, the two methods return
the same result for id 100 and the single underlying row is the source with
id 100. -/
theorem queryScanFolderByProductID_same_as_bySourceID_witness :
    queryScanFolderByProductID sampleDb 100 false (fun (s : Unit) _ => (true, s)) () =
      queryScanFolderBySourceID sampleDb 100 false (fun (s : Unit) _ => (true, s)) () ∧
    sampleCombined.source.sourceID = 100 :=
  have t := queryScanFolderByProductID_same_as_bySourceID sampleDb 100 Unit false
    (fun (s : Unit) _ => (true, s)) ()
  ⟨t.1, t.2 sampleCombined (by decide)⟩

/-! ## C3: error semantics of the result projection layer -/

/-- C3 counterexample: on the empty database, `QueryScanFolderBySourceID` with
no store error (`err = false`) matches zero rows yet returns false, so "returns
false only when the underlying store reports an error" fails for the
scan-folder projections. -/
theorem queryScanFolderBySourceID_zeroRows_counterexample :
    combinedBySourceIDRows emptyDb 1 = [] ∧
    queryScanFolderBySourceID emptyDb 1 false (fun (s : Unit) _ => (true, s)) () =
      (false, ()) := by
  exact ⟨rfl, rfl⟩

/-- C3 (amended): the statement-backed query runners (`GetResult`,
`GetJobResult`, `GetCombinedResult`) return false only when stepping reports a
store error, and a zero-row result is a success with zero handler invocations;
the scan-folder projections `QueryScanFolderBySourceID`/`ByJobID`/`ByProductID`
and the JobInfo projection `QueryJobInfoByJobID`, however, conjoin a found flag
and return false whenever the underlying query matched zero rows, even without
a store error. -/
theorem resultProjection_error_semantics (α σ : Type) (rows : List α)
    (jrows : List JobEntry) (crows : List CombinedEntry) (err : Bool)
    (builderGuid : Option Nat) (jobKey : Option String) (status : Option Nat)
    (h : σ → α → Bool × σ) (hj : σ → JobEntry → Bool × σ)
    (hc : σ → CombinedEntry → Bool × σ) (hsf : σ → ScanFolderEntry → Bool × σ)
    (hji : σ → JobInfo → Bool × σ) (s : σ) (db : AssetDB) (n : Int) :
    ((getResultRun rows err h s).1 = false → err = true) ∧
    (getResultRun ([] : List α) false h s = (true, s, [])) ∧
    ((getJobResultRun jrows err builderGuid jobKey status hj s).1 = false →
      err = true) ∧
    (getJobResultRun [] false builderGuid jobKey status hj s = (true, s, [])) ∧
    ((getCombinedResultRun crows err builderGuid jobKey status hc s).1 = false →
      err = true) ∧
    (getCombinedResultRun [] false builderGuid jobKey status hc s = (true, s, [])) ∧
    (combinedBySourceIDRows db n = [] →
      queryScanFolderBySourceID db n false hsf s = (false, s) ∧
      queryScanFolderByProductID db n false hsf s = (false, s)) ∧
    (combinedByJobIDRows db n = [] →
      queryScanFolderByJobID db n false hsf s = (false, s) ∧
      queryJobInfoByJobID db n false false hji s = (false, s)) := by
  refine ⟨getResultRun_false_imp_err rows err h s, rfl,
    getJobResultRun_false_imp_err jrows err builderGuid jobKey status hj s, rfl,
    getCombinedResultRun_false_imp_err crows err builderGuid jobKey status hc s, rfl,
    ?_, ?_⟩
  · intro hrows
    constructor
    · rw [queryScanFolderBySourceID, queryCombinedBySourceID, hrows]
      rfl
    · rw [queryScanFolderByProductID, queryCombinedBySourceID, hrows]
      rfl
  · intro hrows
    constructor
    · rw [queryScanFolderByJobID, queryCombinedByJobID, hrows]
      rfl
    · rw [queryJobInfoByJobID, querySourceByJobID, queryCombinedByJobID, hrows]
      rfl

/-- Witness for C3: concrete uses of the amended statement — the generic runner
fails exactly on a store error, and the zero-row scan-folder/JobInfo
projections on the sample database (which has no rows for source id 5 or job id
5) return false without any store error. -/
theorem resultProjection_error_semantics_witness :
    (true : Bool) = true ∧
    (queryScanFolderBySourceID sampleDb 5 false (fun (s : Unit) _ => (true, s)) () =
      (false, ()) ∧
     queryScanFolderByProductID sampleDb 5 false (fun (s : Unit) _ => (true, s)) () =
      (false, ())) ∧
    queryJobInfoByJobID sampleDb 5 false false (fun (s : Unit) _ => (true, s)) () =
      (false, ()) :=
  have t := resultProjection_error_semantics Nat Unit [] [] [] true none none none
    (fun s _ => (true, s)) (fun s _ => (true, s)) (fun s _ => (true, s))
    (fun s _ => (true, s)) (fun s _ => (true, s)) () sampleDb 5
  ⟨t.1 (by rfl), t.2.2.2.2.2.2.1 (by decide), (t.2.2.2.2.2.2.2 (by decide)).2⟩

/-! ## C4: early-stop contract -/

/-- C4: when the statement yields at least one (criteria-matching) row and the
caller's handler stops on its first invocation, exactly one row is delivered
and the method still returns true, across query families: the generic
`GetResult` runner, the criteria-filtered `GetCombinedResult` runner, the
scan-folder projection `QueryScanFolderBySourceID`, and the one-row source
projection `QuerySourceByJobID`. -/
theorem earlyStop_one_row (α σ : Type) (r : α) (rest : List α) (err : Bool)
    (h : σ → α → Bool × σ) (s : σ) (pre restc : List CombinedEntry)
    (rc : CombinedEntry) (builderGuid : Option Nat) (jobKey : Option String)
    (status : Option Nat) (hc : σ → CombinedEntry → Bool × σ)
    (hsf : σ → ScanFolderEntry → Bool × σ) (hsrc : σ → SourceEntry → Bool × σ)
    (db : AssetDB) (n : Int) :
    ((h s r).1 = false →
      getResultRun (r :: rest) err h s = (true, (h s r).2, [r])) ∧
    ((∀ x ∈ pre, resultMatchesJobCriteria jobKey builderGuid status
        x.job.jobKey x.job.builderGuid x.job.status = false) →
      resultMatchesJobCriteria jobKey builderGuid status
        rc.job.jobKey rc.job.builderGuid rc.job.status = true →
      (hc s rc).1 = false →
      getCombinedResultRun (pre ++ rc :: restc) err builderGuid jobKey status hc s =
        (true, (hc s rc).2, [rc])) ∧
    (combinedBySourceIDRows db n = rc :: restc →
      (hsf s rc.scanFolder).1 = false →
      queryScanFolderBySourceID db n err hsf s = (true, (hsf s rc.scanFolder).2)) ∧
    (combinedByJobIDRows db n = rc :: restc →
      querySourceByJobID db n err hsrc s = (true, (hsrc s rc.source).2)) := by
  refine ⟨?_, ?_, ?_, ?_⟩
  · intro h1
    rw [getResultRun]
    rcases hh : h s r with ⟨b, s1⟩
    rw [hh] at h1
    simp at h1
    subst h1
    simp [hh]
  · intro hpre hm h1
    induction pre with
    | nil =>
      simp only [List.nil_append]
      rw [getCombinedResultRun, if_pos hm]
      rcases hh : hc s rc with ⟨b, s1⟩
      rw [hh] at h1
      simp at h1
      subst h1
      simp [hh]
    | cons x xs ih =>
      have hx := hpre x (List.mem_cons_self x xs)
      simp only [List.cons_append]
      rw [getCombinedResultRun, if_neg (by simp [hx])]
      exact ih fun y hy => hpre y (List.mem_cons_of_mem x hy)
  · intro hrows h1
    rw [queryScanFolderBySourceID, queryCombinedBySourceID, hrows,
      getCombinedResultRun, if_pos (resultMatchesJobCriteria_none _ _ _)]
    rcases hh : hsf s rc.scanFolder with ⟨b, s1⟩
    rw [hh] at h1
    simp at h1
    subst h1
    simp [hh]
  · intro hrows
    rw [querySourceByJobID, queryCombinedByJobID, hrows, getCombinedResultRun,
      if_pos (resultMatchesJobCriteria_none _ _ _)]

/-- Witness for C4: on the sample database, a handler that stops immediately
sees exactly one row and every family still reports success. -/
theorem earlyStop_one_row_witness :
    getResultRun ([5] : List Nat) true (fun (s : Unit) _ => (false, s)) () =
      (true, (), [5]) ∧
    getCombinedResultRun ([] ++ sampleCombined :: []) true none none none
      (fun (s : Unit) _ => (false, s)) () = (true, (), [sampleCombined]) ∧
    queryScanFolderBySourceID sampleDb 100 true (fun (s : Unit) _ => (false, s)) () =
      (true, ()) ∧
    querySourceByJobID sampleDb 200 true (fun (s : Unit) _ => (false, s)) () =
      (true, ()) :=
  have t := earlyStop_one_row Nat Unit 5 [] true (fun s _ => (false, s)) () [] []
    sampleCombined none none none (fun s _ => (false, s)) (fun s _ => (false, s))
    (fun s _ => (false, s)) sampleDb 100
  have t2 := earlyStop_one_row Nat Unit 5 [] true (fun s _ => (false, s)) () [] []
    sampleCombined none none none (fun s _ => (false, s)) (fun s _ => (false, s))
    (fun s _ => (false, s)) sampleDb 200
  ⟨t.1 rfl, t.2.1 (by intro x hx; cases hx) rfl rfl,
   t.2.2.1 (by decide) rfl, t2.2.2.2 (by decide)⟩

/-! ## C5 and C6: open-time gating -/

/-- The table-existence loop fails whenever some listed table is absent from the
store, provided every memoized table is actually present. -/
theorem validateTablesLoop_missing (env : OpenEnv) :
    ∀ (ts : List String) (st : ConnState),
      (∀ x ∈ st.validatedTables, x ∈ env.storeTables) →
      (∃ t ∈ ts, t ∉ env.storeTables) →
      (validateTablesLoop env ts st).1 = false := by
  intro ts
  induction ts with
  | nil =>
    intro st hinv hmiss
    rcases hmiss with ⟨t, ht, _⟩
    cases ht
  | cons t ts ih =>
    intro st hinv hmiss
    rw [validateTablesLoop]
    by_cases hv : (validateDatabaseTable env st t).1 = true
    · rw [if_pos hv]
      rcases hmiss with ⟨u, hu, humiss⟩
      have htpresent : t ∈ env.storeTables := by
        unfold validateDatabaseTable at hv
        split at hv
        · next hmemo => exact hinv t (List.mem_of_elem_eq_true hmemo)
        · split at hv
          · simp at hv
          · split at hv
            · next hstore => exact List.mem_of_elem_eq_true hstore
            · simp at hv
      have hu' : u ∈ ts := by
        rcases List.mem_cons.mp hu with h | h
        · exact absurd (h ▸ htpresent) humiss
        · exact h
      refine ih (validateDatabaseTable env st t).2 ?_ ⟨u, hu', humiss⟩
      intro x hx
      unfold validateDatabaseTable at hx
      split at hx
      · exact hinv x hx
      · split at hx
        · exact hinv x hx
        · split at hx
          · next hstore =>
              rcases List.mem_cons.mp (by simpa using hx) with h | h
              · exact h ▸ List.mem_of_elem_eq_true hstore
              · exact hinv x h
          · exact hinv x hx
    · rw [if_neg hv]

/-- C5: if the stored schema version is not exactly the current one, or any
expected table (`BuilderInfo`, `Files`, `Jobs`, `LegacySubIDs`,
`ProductDependencies`, `Products`, `ScanFolders`, `SourceDependency`,
`Sources`, `dbinfo`) is missing, `OpenDatabase()` on a closed connection
returns false and leaves the connection fully closed: no store handle and an
empty validated-table cache. -/
theorem openDatabase_schema_gate (env : OpenEnv)
    (h : env.storedVersion ≠ env.currentVersion ∨
         ∃ t ∈ expectedTables, t ∉ env.storeTables) :
    (openDatabase env initialConnState).success = false ∧
    (openDatabase env initialConnState).state = initialConnState := by
  rw [openDatabase]
  by_cases h1 : (env.readOnlyMode && !env.fileExists) = true
  · rw [if_pos h1]
    exact ⟨rfl, rfl⟩
  · rw [if_neg h1]
    by_cases h2 : (!env.readOnlyMode && env.fileExists && !env.fileWritable) = true
    · rw [if_pos h2]
      exact ⟨rfl, rfl⟩
    · rw [if_neg h2]
      by_cases h3 : (!env.storeOpenOk) = true
      · rw [if_pos h3]
        exact ⟨rfl, rfl⟩
      · rw [if_neg h3]
        have hpost : (postOpenDatabase env ⟨true, []⟩).1 = false := by
          rw [postOpenDatabase]
          by_cases hv : (env.storedVersion != env.currentVersion) = true
          · rw [if_pos hv]
          · rw [if_neg hv]
            rcases h with hver | hmiss
            · exact absurd (by simpa using hver) (by simpa using hv)
            · exact validateTablesLoop_missing env expectedTables ⟨true, []⟩
                (by intro x hx; cases hx) hmiss
        simp [hpost, closeDatabase, initialConnState]

/-- Witness for C5: a store whose dbinfo version is 13 against an expected 14
fails the open and leaves the connection closed. -/
theorem openDatabase_schema_gate_witness :
    (openDatabase ⟨false, true, true, true, 13, 14, expectedTables⟩
        initialConnState).success = false ∧
    (openDatabase ⟨false, true, true, true, 13, 14, expectedTables⟩
        initialConnState).state = initialConnState :=
  openDatabase_schema_gate ⟨false, true, true, true, 13, 14, expectedTables⟩
    (Or.inl (by decide))

/-- C6: `OpenDatabase()` on a closed connection returns false with the store
never even opened precisely in the two precondition-violation cases — read-only
mode with a missing database file, or read-write mode on an existing file that
is not writable — and in any store-untouched outcome the connection state is
left exactly as it was (closed, no retry). -/
theorem openDatabase_precondition_iff (env : OpenEnv) :
    (((openDatabase env initialConnState).success = false ∧
      (openDatabase env initialConnState).storeOpenAttempted = false) ↔
     ((env.readOnlyMode = true ∧ env.fileExists = false) ∨
      (env.readOnlyMode = false ∧ env.fileExists = true ∧
       env.fileWritable = false))) ∧
    ((openDatabase env initialConnState).storeOpenAttempted = false →
      (openDatabase env initialConnState).state = initialConnState) := by
  by_cases h1 : (env.readOnlyMode && !env.fileExists) = true
  · have hro : env.readOnlyMode = true ∧ env.fileExists = false := by simpa using h1
    refine ⟨⟨fun _ => Or.inl hro, fun _ => ?_⟩, fun _ => ?_⟩
    · rw [openDatabase, if_pos h1]
      exact ⟨rfl, rfl⟩
    · rw [openDatabase, if_pos h1]
  · by_cases h2 : (!env.readOnlyMode && env.fileExists && !env.fileWritable) = true
    · have hparts : (env.readOnlyMode = false ∧ env.fileExists = true) ∧
          env.fileWritable = false := by simpa using h2
      refine ⟨⟨fun _ => Or.inr ⟨hparts.1.1, hparts.1.2, hparts.2⟩, fun _ => ?_⟩,
        fun _ => ?_⟩
      · rw [openDatabase, if_neg h1, if_pos h2]
        exact ⟨rfl, rfl⟩
      · rw [openDatabase, if_neg h1, if_pos h2]
    · have hatt : (openDatabase env initialConnState).storeOpenAttempted = true := by
        rw [openDatabase, if_neg h1, if_neg h2]
        by_cases h3 : (!env.storeOpenOk) = true
        · rw [if_pos h3]
        · rw [if_neg h3]
          cases hpost : (postOpenDatabase env ⟨true, []⟩).1 <;> simp [hpost]
      constructor
      · constructor
        · intro hfalse
          rw [hatt] at hfalse
          exact absurd hfalse.2 (by simp)
        · intro hrhs
          exfalso
          rcases hrhs with ⟨hro, hfe⟩ | ⟨hro, hfe, hfw⟩
          · exact h1 (by simp [hro, hfe])
          · exact h2 (by simp [hro, hfe, hfw])
      · intro hattf
        rw [hatt] at hattf
        exact absurd hattf (by simp)

/-- Witness for C6: read-only mode with a missing file is refused before the
store is touched, leaving the initial closed state. -/
theorem openDatabase_precondition_iff_witness :
    ((openDatabase ⟨true, false, true, true, 14, 14, expectedTables⟩
        initialConnState).success = false ∧
     (openDatabase ⟨true, false, true, true, 14, 14, expectedTables⟩
        initialConnState).storeOpenAttempted = false) ∧
    (openDatabase ⟨true, false, true, true, 14, 14, expectedTables⟩
        initialConnState).state = initialConnState :=
  have t := openDatabase_precondition_iff ⟨true, false, true, true, 14, 14, expectedTables⟩
  have h1 := t.1.mpr (Or.inl ⟨rfl, rfl⟩)
  ⟨h1, t.2 h1.2⟩

/-! ## C2: pattern-matching safety of the like-search rewriting -/

/-- Unfolding: the `%` wildcard tries every split point. -/
theorem likeMatch_pct (ps s : List Char) :
    likeMatch ('%' :: ps) s =
      (List.range (s.length + 1)).any fun n => likeMatch ps (s.drop n) := by
  rw [likeMatch.eq_def]
  simp

/-- `%` matches a string exactly when the rest of the pattern matches some
suffix. -/
theorem likeMatch_pct_iff (ps s : List Char) :
    likeMatch ('%' :: ps) s = true ↔ ∃ n, likeMatch ps (s.drop n) = true := by
  rw [likeMatch_pct]
  simp only [List.any_eq_true, List.mem_range]
  constructor
  · rintro ⟨n, _, h⟩
    exact ⟨n, h⟩
  · rintro ⟨n, h⟩
    by_cases hn : n < s.length + 1
    · exact ⟨n, hn, h⟩
    · refine ⟨s.length, by omega, ?_⟩
      rw [List.drop_length]
      rw [List.drop_eq_nil_of_le (by omega)] at h
      exact h

/-- Unfolding: an escaped character matches itself. -/
theorem likeMatch_esc (q : Char) (ps : List Char) (c : Char) (s2 : List Char) :
    likeMatch ('|' :: q :: ps) (c :: s2) = (q == c && likeMatch ps s2) := by
  rw [likeMatch.eq_def]
  simp

/-- Unfolding: an escape never matches the empty string. -/
theorem likeMatch_esc_nil (ps : List Char) : likeMatch ('|' :: ps) [] = false := by
  cases ps <;> (rw [likeMatch.eq_def]; simp)

/-- Unfolding: an ordinary pattern character matches exactly itself. -/
theorem likeMatch_lit_cons (p : Char) (hp1 : (p == '%') = false)
    (hp2 : (p == '|') = false) (hp3 : (p == '_') = false) (ps : List Char)
    (c : Char) (s2 : List Char) :
    likeMatch (p :: ps) (c :: s2) = (p == c && likeMatch ps s2) := by
  rw [likeMatch.eq_def]
  simp [hp1, hp2, hp3]

/-- Unfolding: an ordinary pattern character never matches the empty string. -/
theorem likeMatch_lit_nil (p : Char) (hp1 : (p == '%') = false)
    (hp2 : (p == '|') = false) (ps : List Char) :
    likeMatch (p :: ps) [] = false := by
  rw [likeMatch.eq_def]
  simp [hp1, hp2]

/-- The lone `%` pattern matches everything. -/
theorem likeMatch_single_pct (s : List Char) : likeMatch ['%'] s = true := by
  rw [likeMatch_pct_iff]
  exact ⟨s.length, by rw [List.drop_length]; rfl⟩

/-- `replaceChar` distributes over append. -/
theorem replaceChar_append (c : Char) (rep a b : List Char) :
    replaceChar c rep (a ++ b) = replaceChar c rep a ++ replaceChar c rep b := by
  induction a with
  | nil => rfl
  | cons x xs ih => by_cases hx : (x == c) = true <;> simp [replaceChar, hx, ih]

/-- How one literal character is escaped. -/
def escChar (c : Char) : List Char :=
  if c = '%' then ['|', '%'] else if c = '_' then ['|', '_'] else [c]

/-- The escaping pass of `GetLikeActualSearchTerm` (`%` then `_`). -/
def escapeLike (l : List Char) : List Char :=
  replaceChar '_' ['|', '_'] (replaceChar '%' ['|', '%'] l)

/-- The double replacement escapes character by character. -/
theorem escapeLike_cons (c : Char) (l : List Char) :
    escapeLike (c :: l) = escChar c ++ escapeLike l := by
  unfold escapeLike escChar
  by_cases h1 : c = '%'
  · subst h1
    rw [show replaceChar '%' ['|', '%'] ('%' :: l) =
      '|' :: '%' :: replaceChar '%' ['|', '%'] l from rfl]
    rw [show replaceChar '_' ['|', '_'] ('|' :: '%' :: replaceChar '%' ['|', '%'] l) =
      '|' :: '%' :: replaceChar '_' ['|', '_'] (replaceChar '%' ['|', '%'] l) from rfl]
    simp
  · by_cases h2 : c = '_'
    · subst h2
      rw [show replaceChar '%' ['|', '%'] ('_' :: l) =
        '_' :: replaceChar '%' ['|', '%'] l from rfl]
      rw [show replaceChar '_' ['|', '_'] ('_' :: replaceChar '%' ['|', '%'] l) =
        '|' :: '_' :: replaceChar '_' ['|', '_'] (replaceChar '%' ['|', '%'] l) from rfl]
      simp
    · have hb1 : (c == '%') = false := by simpa using h1
      have hb2 : (c == '_') = false := by simpa using h2
      rw [show replaceChar '%' ['|', '%'] (c :: l) =
        c :: replaceChar '%' ['|', '%'] l by simp [replaceChar, hb1]]
      rw [show replaceChar '_' ['|', '_'] (c :: replaceChar '%' ['|', '%'] l) =
        c :: replaceChar '_' ['|', '_'] (replaceChar '%' ['|', '%'] l) by
        simp [replaceChar, hb2]]
      simp [h1, h2]

/-- Core correctness of the escaping pass: a pattern that starts with the
escaped literal (followed by anything) matches exactly the strings that start
with the literal verbatim, as long as the literal avoids the escape character. -/
theorem likeMatch_escapeLike_append (L : List Char) (hL : '|' ∉ L) :
    ∀ (ps s : List Char),
      (likeMatch (escapeLike L ++ ps) s = true ↔
        ∃ s2, s = L ++ s2 ∧ likeMatch ps s2 = true) := by
  induction L with
  | nil =>
    intro ps s
    simp [escapeLike, replaceChar]
  | cons c L ih =>
    have hc : c ≠ '|' := fun h => hL (h ▸ List.mem_cons_self _ _)
    have hL' : '|' ∉ L := fun h => hL (List.mem_cons_of_mem _ h)
    intro ps s
    rw [escapeLike_cons]
    by_cases h1 : c = '%'
    · subst h1
      rw [show escChar '%' = ['|', '%'] from rfl]
      cases s with
      | nil =>
        rw [show (['|', '%'] ++ escapeLike L ++ ps : List Char) =
          '|' :: '%' :: (escapeLike L ++ ps) by simp]
        rw [likeMatch_esc_nil]
        simp
      | cons d s2 =>
        rw [show (['|', '%'] ++ escapeLike L ++ ps : List Char) =
          '|' :: '%' :: (escapeLike L ++ ps) by simp]
        rw [likeMatch_esc]
        simp only [Bool.and_eq_true, beq_iff_eq, ih hL' ps s2, List.cons_append,
          List.cons.injEq]
        constructor
        · rintro ⟨hd, t, ht, hm⟩
          exact ⟨t, ⟨hd.symm, ht⟩, hm⟩
        · rintro ⟨t, ⟨hd, ht⟩, hm⟩
          exact ⟨hd.symm, t, ht, hm⟩
    · by_cases h2 : c = '_'
      · subst h2
        rw [show escChar '_' = ['|', '_'] from rfl]
        cases s with
        | nil =>
          rw [show (['|', '_'] ++ escapeLike L ++ ps : List Char) =
            '|' :: '_' :: (escapeLike L ++ ps) by simp]
          rw [likeMatch_esc_nil]
          simp
        | cons d s2 =>
          rw [show (['|', '_'] ++ escapeLike L ++ ps : List Char) =
            '|' :: '_' :: (escapeLike L ++ ps) by simp]
          rw [likeMatch_esc]
          simp only [Bool.and_eq_true, beq_iff_eq, ih hL' ps s2, List.cons_append,
            List.cons.injEq]
          constructor
          · rintro ⟨hd, t, ht, hm⟩
            exact ⟨t, ⟨hd.symm, ht⟩, hm⟩
          · rintro ⟨t, ⟨hd, ht⟩, hm⟩
            exact ⟨hd.symm, t, ht, hm⟩
      · rw [show escChar c = [c] by simp [escChar, h1, h2]]
        have hp1 : (c == '%') = false := by simpa using h1
        have hp2 : (c == '|') = false := by simpa using hc
        have hp3 : (c == '_') = false := by simpa using h2
        cases s with
        | nil =>
          rw [show ([c] ++ escapeLike L ++ ps : List Char) =
            c :: (escapeLike L ++ ps) by simp]
          rw [likeMatch_lit_nil c hp1 hp2]
          simp
        | cons d s2 =>
          rw [show ([c] ++ escapeLike L ++ ps : List Char) =
            c :: (escapeLike L ++ ps) by simp]
          rw [likeMatch_lit_cons c hp1 hp2 hp3]
          simp only [Bool.and_eq_true, beq_iff_eq, ih hL' ps s2, List.cons_append,
            List.cons.injEq]
          constructor
          · rintro ⟨hd, t, ht, hm⟩
            exact ⟨t, ⟨hd.symm, ht⟩, hm⟩
          · rintro ⟨t, ⟨hd, ht⟩, hm⟩
            exact ⟨hd.symm, t, ht, hm⟩

/-- The escaped literal alone matches exactly the literal itself. -/
theorem likeMatch_escapeLike (L : List Char) (hL : '|' ∉ L) (s : List Char) :
    likeMatch (escapeLike L) s = true ↔ s = L := by
  have h := likeMatch_escapeLike_append L hL [] s
  rw [List.append_nil] at h
  rw [h]
  constructor
  · rintro ⟨s2, hs, hm⟩
    have : s2 = [] := by
      cases s2 with
      | nil => rfl
      | cons a b =>
          rw [likeMatch.eq_def] at hm
          simp at hm
    simp [hs, this]
  · intro hs
    exact ⟨[], by simp [hs], rfl⟩

/-- C2 counterexample: the helper escapes only `%` and `_`, not the escape
character itself, so for the literal `a|b` the StartsWith pattern `a|b%`
treats `|b` as an escaped `b` and matches the stored string `ab`, in which the
literal `a|b` does not occur as a prefix. -/
theorem getLikeActualSearchTerm_pipe_counterexample :
    likeMatch (getLikeActualSearchTerm ['a', '|', 'b'] .StartsWith) ['a', 'b'] = true ∧
    List.isPrefixOf ['a', '|', 'b'] ['a', 'b'] = false := by
  exact ⟨by decide, by decide⟩

/-- C2 (amended): for every search literal that does not contain the escape
character `|`, the pattern built by `GetLikeActualSearchTerm` matches a stored
string under `LIKE ... ESCAPE '|'` exactly where the literal occurs verbatim —
as a prefix for StartsWith, as a suffix for EndsWith, as a substring for
Matches — so no character of such a literal (in particular the store wildcards
`%` and `_`) is ever interpreted as a pattern metacharacter. -/
theorem getLikeActualSearchTerm_literal_safe (L s : List Char) (hL : '|' ∉ L) :
    (likeMatch (getLikeActualSearchTerm L .StartsWith) s = true ↔
      ∃ t, s = L ++ t) ∧
    (likeMatch (getLikeActualSearchTerm L .EndsWith) s = true ↔
      ∃ t, s = t ++ L) ∧
    (likeMatch (getLikeActualSearchTerm L .Matches) s = true ↔
      ∃ t u, s = t ++ L ++ u) := by
  refine ⟨?_, ?_, ?_⟩
  · rw [show getLikeActualSearchTerm L .StartsWith = escapeLike L ++ ['%'] from rfl]
    rw [likeMatch_escapeLike_append L hL ['%'] s]
    constructor
    · rintro ⟨t, ht, _⟩
      exact ⟨t, ht⟩
    · rintro ⟨t, ht⟩
      exact ⟨t, ht, likeMatch_single_pct t⟩
  · rw [show getLikeActualSearchTerm L .EndsWith = '%' :: escapeLike L from rfl]
    rw [likeMatch_pct_iff]
    constructor
    · rintro ⟨n, hn⟩
      rw [likeMatch_escapeLike L hL] at hn
      exact ⟨s.take n, by rw [← hn, List.take_append_drop]⟩
    · rintro ⟨t, ht⟩
      refine ⟨t.length, ?_⟩
      rw [likeMatch_escapeLike L hL, ht, List.drop_left]
  · rw [show getLikeActualSearchTerm L .Matches = '%' :: (escapeLike L ++ ['%']) from rfl]
    rw [likeMatch_pct_iff]
    constructor
    · rintro ⟨n, hn⟩
      rw [likeMatch_escapeLike_append L hL ['%'] (s.drop n)] at hn
      rcases hn with ⟨u, hu, _⟩
      refine ⟨s.take n, u, ?_⟩
      rw [List.append_assoc, ← hu, List.take_append_drop]
    · rintro ⟨t, u, hs⟩
      refine ⟨t.length, ?_⟩
      rw [likeMatch_escapeLike_append L hL ['%'] _]
      refine ⟨u, ?_, likeMatch_single_pct u⟩
      rw [hs, List.append_assoc, List.drop_left]

/-- Witness for C2: the spec's own example literal `100%_done` (which contains
no `|`): its StartsWith pattern matches an extension of the literal, and its
Matches pattern does not match `100Xdone`, where the literal does not occur. -/
theorem getLikeActualSearchTerm_literal_safe_witness :
    likeMatch
      (getLikeActualSearchTerm ['1', '0', '0', '%', '_', 'd', 'o', 'n', 'e'] .StartsWith)
      (['1', '0', '0', '%', '_', 'd', 'o', 'n', 'e'] ++ ['!']) = true ∧
    likeMatch
      (getLikeActualSearchTerm ['1', '0', '0', '%', '_', 'd', 'o', 'n', 'e'] .Matches)
      ['1', '0', '0', 'X', 'd', 'o', 'n', 'e'] = false :=
  ⟨(getLikeActualSearchTerm_literal_safe ['1', '0', '0', '%', '_', 'd', 'o', 'n', 'e']
      (['1', '0', '0', '%', '_', 'd', 'o', 'n', 'e'] ++ ['!']) (by decide)).1.mpr
    ⟨['!'], rfl⟩, by decide⟩

/-! ## C1: the recursive transitive-dependency query -/

/-- Rows present in the working set stay in it after a union round. -/
theorem mem_closureStep (db : AssetDB) (cur : List ProductEntry) (a : ProductEntry)
    (h : a ∈ cur) : a ∈ closureStep db cur :=
  List.mem_append_left _ h

/-- Every row of the working set is a stored product. -/
theorem closureStep_subset_products (db : AssetDB) (cur : List ProductEntry)
    (h : ∀ x ∈ cur, x ∈ db.products) :
    ∀ x ∈ closureStep db cur, x ∈ db.products := by
  intro x hx
  rcases List.mem_append.mp hx with h1 | h1
  · exact h x h1
  · exact (List.mem_filter.mp (List.mem_filter.mp h1).1).1

/-- A union round keeps the working set duplicate-free. -/
theorem closureStep_nodup (db : AssetDB) (cur : List ProductEntry)
    (hp : db.products.Nodup) (h : cur.Nodup) : (closureStep db cur).Nodup := by
  rw [closureStep, List.nodup_append]
  refine ⟨h, (hp.filter _).filter _, ?_⟩
  intro x hx hx2
  exact absurd hx (of_decide_eq_true (List.mem_filter.mp hx2).2)

/-- A union round that derives nothing new is the identity. -/
theorem closureStep_eq_of_subset (db : AssetDB) (cur : List ProductEntry)
    (h : ∀ x ∈ depSuccessors db cur, x ∈ cur) : closureStep db cur = cur := by
  rw [closureStep]
  have : (depSuccessors db cur).filter (fun p => decide (p ∉ cur)) = [] := by
    apply List.filter_eq_nil_iff.mpr
    intro a ha
    simp [h a ha]
  rw [this, List.append_nil]

/-- A union round that is not the identity grows the working set. -/
theorem closureStep_length (db : AssetDB) (cur : List ProductEntry)
    (h : closureStep db cur ≠ cur) :
    cur.length + 1 ≤ (closureStep db cur).length := by
  rw [closureStep] at h ⊢
  rcases he : (depSuccessors db cur).filter (fun p => decide (p ∉ cur)) with _ | ⟨a, t⟩
  · exact absurd (by rw [he, List.append_nil]) h
  · rw [List.length_append, List.length_cons]
    omega

/-- A fixed point of the union round is preserved by iteration. -/
theorem closureN_fix (db : AssetDB) (cur : List ProductEntry)
    (h : closureStep db cur = cur) : ∀ n, closureN db n cur = cur := by
  intro n
  induction n with
  | zero => rfl
  | succ n ih => rw [closureN, h, ih]

/-- After `n` rounds the working set is a fixed point or has grown by `n`. -/
theorem closureN_progress (db : AssetDB) :
    ∀ (n : Nat) (cur : List ProductEntry),
      closureStep db (closureN db n cur) = closureN db n cur ∨
      cur.length + n ≤ (closureN db n cur).length := by
  intro n
  induction n with
  | zero =>
    intro cur
    right
    simp [closureN]
  | succ n ih =>
    intro cur
    by_cases h : closureStep db cur = cur
    · left
      rw [closureN, h, closureN_fix db cur h n, h]
    · rcases ih (closureStep db cur) with h1 | h1
      · left
        rw [closureN]
        exact h1
      · right
        rw [closureN]
        have := closureStep_length db cur h
        omega

/-- Iteration preserves membership in the stored products. -/
theorem closureN_subset_products (db : AssetDB) :
    ∀ (n : Nat) (cur : List ProductEntry), (∀ x ∈ cur, x ∈ db.products) →
      ∀ x ∈ closureN db n cur, x ∈ db.products := by
  intro n
  induction n with
  | zero => intro cur h; exact h
  | succ n ih =>
    intro cur h
    rw [closureN]
    exact ih _ (closureStep_subset_products db cur h)

/-- Iteration keeps the working set duplicate-free. -/
theorem closureN_nodup (db : AssetDB) (hp : db.products.Nodup) :
    ∀ (n : Nat) (cur : List ProductEntry), cur.Nodup → (closureN db n cur).Nodup := by
  intro n
  induction n with
  | zero => intro cur h; exact h
  | succ n ih =>
    intro cur h
    rw [closureN]
    exact ih _ (closureStep_nodup db cur hp h)

/-- The starting rows stay at the front of the working set. -/
theorem closureN_exists_suffix (db : AssetDB) :
    ∀ (n : Nat) (cur : List ProductEntry), ∃ t, closureN db n cur = cur ++ t := by
  intro n
  induction n with
  | zero => intro cur; exact ⟨[], by simp [closureN]⟩
  | succ n ih =>
    intro cur
    rcases ih (closureStep db cur) with ⟨t, ht⟩
    rw [closureN, ht, closureStep]
    exact ⟨_, by rw [List.append_assoc]⟩

/-- Everything in the working set is reachable if everything was at the start. -/
theorem closureN_sound (db : AssetDB) (root : ProductEntry) :
    ∀ (n : Nat) (cur : List ProductEntry),
      (∀ x ∈ cur, ReachableProduct db root x) →
      ∀ p ∈ closureN db n cur, ReachableProduct db root p := by
  intro n
  induction n with
  | zero => intro cur h; exact h
  | succ n ih =>
    intro cur h
    rw [closureN]
    apply ih
    intro x hx
    rcases List.mem_append.mp hx with h1 | h1
    · exact h x h1
    · have h2 := List.mem_filter.mp h1
      have h3 := List.mem_filter.mp h2.1
      have h4 : ∃ r ∈ cur, depEdge db r x = true := by simpa using h3.2
      rcases h4 with ⟨r, hr, hedge⟩
      exact ReachableProduct.step (h r hr) hedge h3.1

/-- A fixed point containing the root absorbs everything reachable. -/
theorem reachable_mem_of_fix (db : AssetDB) (root : ProductEntry)
    (cur : List ProductEntry) (hfix : closureStep db cur = cur) (hroot : root ∈ cur) :
    ∀ p, ReachableProduct db root p → p ∈ cur := by
  intro p hp
  induction hp with
  | refl => exact hroot
  | @step x y hx hedge hmem ih =>
    by_cases hy : y ∈ cur
    · exact hy
    · have hsucc : y ∈ depSuccessors db cur := by
        rw [depSuccessors, List.mem_filter]
        refine ⟨hmem, ?_⟩
        simp only [List.any_eq_true]
        exact ⟨x, ih, hedge⟩
      have hstep : y ∈ closureStep db cur := by
        rw [closureStep]
        apply List.mem_append_right
        rw [List.mem_filter]
        exact ⟨hsucc, decide_eq_true hy⟩
      rw [hfix] at hstep
      exact hstep

/-- With unique product ids, the initial select returns exactly the root row. -/
theorem filter_productID_eq_singleton :
    ∀ (l : List ProductEntry), (l.map ProductEntry.productID).Nodup →
      ∀ root ∈ l, l.filter (fun p => p.productID == root.productID) = [root] := by
  intro l
  induction l with
  | nil => intro _ root h; cases h
  | cons a l ih =>
    intro hnd root hmem
    have hnd' : (∀ x ∈ l, ¬ x.productID = a.productID) ∧
        (l.map ProductEntry.productID).Nodup := by simpa using hnd
    rcases List.mem_cons.mp hmem with h | h
    · subst h
      rw [List.filter_cons, if_pos (by simp),
        List.filter_eq_nil_iff.mpr (fun p hp => by simp [hnd'.1 p hp])]
    · have hne : (a.productID == root.productID) = false :=
        beq_eq_false_iff_ne.mpr (fun hid => hnd'.1 root h hid.symm)
      rw [List.filter_cons, if_neg (by simp [hne])]
      exact ih hnd'.2 root h

/-- C1: for every stored dependency graph (cycles included), the recursive
all-product-dependencies query terminates — it is a total function of the
database — and, run with an always-continue handler, delivers exactly the set
of stored products reachable from the root product along resolved
`ProductDependencies` edges (each edge resolved through the
Source→Job→Product join), with the root itself excluded and no product
delivered more than once.  Hypotheses: the root is a stored product row and
product ids are unique (the store's primary-key invariant). -/
theorem queryAllProductDependencies_spec (db : AssetDB) (root : ProductEntry)
    (hmem : root ∈ db.products)
    (huniq : (db.products.map ProductEntry.productID).Nodup) :
    (queryAllProductDependenciesRows db root.productID).Nodup ∧
    (∀ p : ProductEntry,
      p ∈ queryAllProductDependenciesRows db root.productID ↔
        ReachableProduct db root p ∧ p ≠ root) ∧
    (∀ err : Bool,
      queryAllProductDependencies (σ := Unit) db root.productID err
        (fun s _ => (true, s)) () =
        (!err, (), queryAllProductDependenciesRows db root.productID)) := by
  have hstart : db.products.filter (fun p => p.productID == root.productID) = [root] :=
    filter_productID_eq_singleton db.products huniq root hmem
  have hpnodup : db.products.Nodup := huniq.of_map
  have hsub : ∀ x ∈ closureN db db.products.length [root], x ∈ db.products := by
    apply closureN_subset_products
    intro x hx
    rcases List.mem_cons.mp hx with h | h
    · exact h ▸ hmem
    · cases h
  have hnodup : (closureN db db.products.length [root]).Nodup := by
    apply closureN_nodup db hpnodup
    simp
  have hfix : closureStep db (closureN db db.products.length [root]) =
      closureN db db.products.length [root] := by
    rcases closureN_progress db db.products.length [root] with h | h
    · exact h
    · exfalso
      have hlen : (closureN db db.products.length [root]).length ≤ db.products.length :=
        (List.subperm_of_subset hnodup hsub).length_le
      simp only [List.length_cons, List.length_nil] at h
      omega
  rcases closureN_exists_suffix db db.products.length [root] with ⟨t, ht⟩
  have ht' : closureN db db.products.length [root] = root :: t := by
    rw [ht]
    rfl
  have hroot_mem : root ∈ closureN db db.products.length [root] := by
    rw [ht']
    exact List.mem_cons_self _ _
  have hsound : ∀ p ∈ closureN db db.products.length [root],
      ReachableProduct db root p := by
    apply closureN_sound
    intro x hx
    rcases List.mem_cons.mp hx with h | h
    · exact h ▸ ReachableProduct.refl
    · cases h
  have hcomplete : ∀ p, ReachableProduct db root p →
      p ∈ closureN db db.products.length [root] :=
    reachable_mem_of_fix db root _ hfix hroot_mem
  have hcons := List.nodup_cons.mp (ht' ▸ hnodup)
  have hrows : queryAllProductDependenciesRows db root.productID = t := by
    rw [queryAllProductDependenciesRows, hstart, ht']
    rfl
  refine ⟨?_, ?_, ?_⟩
  · rw [hrows]
    exact hcons.2
  · intro p
    rw [hrows]
    constructor
    · intro hp
      have hpc : p ∈ closureN db db.products.length [root] := by
        rw [ht']
        exact List.mem_cons_of_mem _ hp
      refine ⟨hsound p hpc, ?_⟩
      intro he
      subst he
      exact hcons.1 hp
    · rintro ⟨hreach, hne⟩
      have hpc := hcomplete p hreach
      rw [ht'] at hpc
      rcases List.mem_cons.mp hpc with h | h
      · exact absurd h hne
      · exact h
  · intro err
    rw [queryAllProductDependencies, getResultRun_alwaysTrue]

/-- The spec's cyclic example: products A, B, C with dependency edges A→B,
B→C and the back-edge C→A. -/
def prodA : ProductEntry := ⟨1, 10, 0, "a.out", 0, 0⟩

/-- Product B of the cyclic example. -/
def prodB : ProductEntry := ⟨2, 20, 0, "b.out", 0, 0⟩

/-- Product C of the cyclic example. -/
def prodC : ProductEntry := ⟨3, 30, 0, "c.out", 0, 0⟩

/-- The cyclic example database: each product is owned by a job whose source
carries the GUID that the incoming dependency edge names. -/
def cycleDb : AssetDB :=
  { scanFolders := []
    sources := [⟨1000, 0, "a.src", 101, ""⟩, ⟨2000, 0, "b.src", 102, ""⟩,
      ⟨3000, 0, "c.src", 103, ""⟩]
    jobs := [⟨10, 1000, "j", 0, "pc", 0, 4, 0, 0, "", 0, "", 0, ""⟩,
      ⟨20, 2000, "j", 0, "pc", 0, 4, 0, 0, "", 0, "", 0, ""⟩,
      ⟨30, 3000, "j", 0, "pc", 0, 4, 0, 0, "", 0, "", 0, ""⟩]
    products := [prodA, prodB, prodC]
    productDependencies := [⟨1, 1, 102, 0, 0, "pc", "", 0⟩,
      ⟨2, 2, 103, 0, 0, "pc", "", 0⟩, ⟨3, 3, 101, 0, 0, "pc", "", 0⟩] }

/-- Witness for C1: on the cyclic example A→B→C→A, the query delivers B (a
reachable dependency) and never re-delivers the root A despite the cycle. -/
theorem queryAllProductDependencies_spec_witness :
    prodB ∈ queryAllProductDependenciesRows cycleDb 1 ∧
    prodA ∉ queryAllProductDependenciesRows cycleDb 1 :=
  have t := queryAllProductDependencies_spec cycleDb prodA (by decide) (by decide)
  ⟨(t.2.1 prodB).mpr
    ⟨ReachableProduct.step ReachableProduct.refl (by decide) (by decide), by decide⟩,
   fun h => ((t.2.1 prodA).mp h).2 rfl⟩

end AssetDb
